import Mathlib

/-!
Verification development for the particle-advection engine
(`parcels/kernel/kernelaos.py`, `parcels/fieldset.py`, `parcels/field.py`).

The Python code is shallowly embedded: each definition below translates a
concrete source function (the source file and line range are given in the
doc comment).  Pieces of the repository that are referenced by the embedded
code but whose own source file is not part of the snapshot
(`parcels/tools/statuscodes.py`, `parcels/grid.py`, the particle accessors'
`reset_state`/`isComputed`, and the base kernel's load step) are modelled
from the natural-language specification and are marked `Modelled from the
spec:` in their doc comments.
-/

set_option autoImplicit false

namespace Parcels

/-! ### Particle status codes

Modelled from the spec: `parcels/tools/statuscodes.py` is not part of the
source snapshot; it declares `StateCode.{Success, Evaluate}`,
`OperationCode.{Repeat, Delete, StopExecution}` and
`ErrorCode.{ErrorOutOfBounds, ErrorThroughSurface, ErrorTimeExtrapolation}`
plus user-defined kinds, here `custom n`. -/
inductive PState where
  | Success
  | Evaluate
  | Repeat
  | Delete
  | StopExecution
  | ErrorOutOfBounds
  | ErrorThroughSurface
  | ErrorTimeExtrapolation
  | custom (n : Nat)
deriving DecidableEq, Repr

/-- A particle, reduced to the attributes the execution engine inspects:
a stable id and the status code (`p.id`, `p.state` in the source). -/
structure Particle where
  id : Nat
  state : PState
deriving DecidableEq, Repr

/-- Modelled from the spec: the particle accessor's `reset_state` (not in
the snapshot) sets the status back to `Evaluate` ("Reset every entity's
status to `Evaluate`", "`Repeat` entities reset to `Evaluate`"). -/
def Particle.resetState (p : Particle) : Particle :=
  { p with state := PState.Evaluate }

/-- `BaseParticleAccessor.delete` (`parcels/particlesets/iterators.py:66-68`):
signal the particle for deletion by setting its state to `Delete`. -/
def Particle.deleteP (p : Particle) : Particle :=
  { p with state := PState.Delete }

/-- Modelled from the spec: `p.isComputed()` (particle class not in the
snapshot) holds when the particle's status is `Success` ("if the entity is
now fully resolved reset it to `Evaluate`"). -/
def Particle.isComputed (p : Particle) : Bool :=
  p.state = PState.Success

/-! ### The recovery map -/

/-- A recovery kernel, abstracted to its observable effect on the particle:
invoked on a particle whose state was just set to `Success`, it leaves the
particle in the returned state. -/
def RecKernel : Type := Particle → PState

/-- A recovery map: error kind to optional recovery kernel (`dict` in the
source; `p.state in recovery_map` becomes `(rm p.state).isSome`). -/
def RecoveryMap : Type := PState → Option RecKernel

/-- `KernelAOS.execute`, `parcels/kernel/kernelaos.py:250-255`: if the
caller passed no map use `{}`; if the caller's map has an entry for
`ErrorOutOfBounds` but none for `ErrorThroughSurface`, copy the
out-of-bounds entry to the through-surface kind; then merge over the
default map (`recovery_map = recovery_base_map.copy();
recovery_map.update(recovery)` — caller entries override the base). -/
def mergeRecovery (base : RecoveryMap) (recovery : Option RecoveryMap) : RecoveryMap :=
  let rec1 : RecoveryMap :=
    match recovery with
    | none => fun _ => none
    | some r =>
      if (r PState.ErrorOutOfBounds).isSome && !(r PState.ErrorThroughSurface).isSome then
        fun s => if s = PState.ErrorThroughSurface then r PState.ErrorOutOfBounds else r s
      else r
  fun s =>
    match rec1 s with
    | some k => some k
    | none => base s

/-! ### The recovery loop of `KernelAOS.execute` -/

/-- `p.state not in [StateCode.Success, StateCode.Evaluate]`
(`parcels/kernel/kernelaos.py:273,303`). -/
def isErrorState (s : PState) : Bool :=
  !(s = PState.Success || s = PState.Evaluate)

/-- `error_particles = [p for p in pset if p.state not in [Success, Evaluate]]`
(`parcels/kernel/kernelaos.py:273`). -/
def errorParticles (ps : List Particle) : List Particle :=
  ps.filter (fun p => isErrorState p.state)

/-- The per-particle body of the recovery `for` loop for a particle that is
neither `Success`/`Evaluate` nor `StopExecution`
(`parcels/kernel/kernelaos.py:280-292`): `Repeat` resets to `Evaluate`;
`Delete` is left alone; an error kind found in the map is set to `Success`,
the recovery kernel runs, and a particle left `Success` (`isComputed`) is
reset to `Evaluate`; an unmapped kind is logged and force-deleted. -/
def applyRecovery (rm : RecoveryMap) (p : Particle) : Particle :=
  if p.state = PState.Repeat then p.resetState
  else if p.state = PState.Delete then p
  else
    match rm p.state with
    | some rk =>
      let s := rk { p with state := PState.Success }
      if s = PState.Success then p.resetState else { p with state := s }
    | none => p.deleteP

/-- One `for p in error_particles` sweep
(`parcels/kernel/kernelaos.py:277-292`).  The error list is fixed at loop
entry, each particle is visited once in set order, and non-error particles
are untouched, so the sweep is a single scan of the set that skips
`Success`/`Evaluate` particles.  Returns the updated set and whether a
`StopExecution` particle was reached (`return` aborts the whole call, and
particles from that point on are left exactly as they were). -/
def recoveryPass (rm : RecoveryMap) : List Particle → List Particle × Bool
  | [] => ([], false)
  | p :: ps =>
    if p.state = PState.Success ∨ p.state = PState.Evaluate then
      let r := recoveryPass rm ps
      (p :: r.1, r.2)
    else if p.state = PState.StopExecution then (p :: ps, true)
    else
      let r := recoveryPass rm ps
      (applyRecovery rm p :: r.1, r.2)

/-- The particles flushed by `KernelAOS.remove_deleted`
(`parcels/kernel/kernelaos.py:229-231`): those with state `Delete` are
written to the output file. -/
def deletedParticles (ps : List Particle) : List Particle :=
  ps.filter (fun p => p.state = PState.Delete)

/-- `KernelAOS.remove_deleted` (`parcels/kernel/kernelaos.py:220-232`): the
set with the `Delete`-state particles removed. -/
def removeDeleted (ps : List Particle) : List Particle :=
  ps.filter (fun p => ¬(p.state = PState.Delete))

/-- Result of the `while error_particles` loop: it either runs out of the
supplied fuel, exits normally (`done`), or aborts on `StopExecution`
(`stopped`).  `written` accumulates the particles flushed to the output
file by `remove_deleted`. -/
inductive ExecResult where
  | done (ps : List Particle) (written : List Particle)
  | stopped (ps : List Particle) (written : List Particle)
  | fuelOut
deriving DecidableEq, Repr

/-- The `while len(error_particles) > 0` loop of `KernelAOS.execute`
(`parcels/kernel/kernelaos.py:275-303`), with the user kernel runs
abstracted as an oracle `ker` (pass number → particle → particle after
`execute_python`/`execute_jit`) and an explicit fuel to make the
potentially diverging loop a total function.  Each iteration: recovery
sweep (aborting on `StopExecution`), flush-and-remove deleted particles,
re-run the kernel, re-classify. -/
def execLoopAux (rm : RecoveryMap) (ker : Nat → Particle → Particle) (writeOut : Bool) :
    Nat → Nat → List Particle → List Particle → ExecResult
  | n, fuel, ps, written =>
    if (errorParticles ps).isEmpty then ExecResult.done ps written
    else
      match fuel with
      | 0 => ExecResult.fuelOut
      | Nat.succ fuel' =>
        let r := recoveryPass rm ps
        if r.2 then ExecResult.stopped r.1 written
        else
          let written' := if writeOut then written ++ deletedParticles r.1 else written
          execLoopAux rm ker writeOut (n + 1) fuel' ((removeDeleted r.1).map (ker n)) written'

/-- `KernelAOS.execute` (`parcels/kernel/kernelaos.py:234-303`), status
side: reset every particle's state to `Evaluate`, merge the recovery map,
run the kernel once (pass `0`), flush-and-remove deleted particles, then
iterate the recovery loop (passes `1, 2, …`).  The chunk-cache
begin-of-step transition on the grids is `beginStepGrids` below. -/
def executeModel (base : RecoveryMap) (recovery : Option RecoveryMap)
    (ker : Nat → Particle → Particle) (writeOut : Bool) (fuel : Nat)
    (ps : List Particle) : ExecResult :=
  let rm := mergeRecovery base recovery
  let ps0 := (ps.map Particle.resetState).map (ker 0)
  let written0 := if writeOut then deletedParticles ps0 else []
  execLoopAux rm ker writeOut 1 fuel (removeDeleted ps0) written0

/-! ### Chunk lifecycle (`grid.load_chunk`)

The integer codes live in `parcels/grid.py`, which is not part of the
snapshot; the four states and their roles are modelled from the spec's
chunk data model (`NotLoaded, LoadRequested, LoadedTouched, Deprecated`)
and from how the codes are used in `kernelaos.py`, `fieldset.py` and
`field.py` (`chunk_not_loaded`, `chunk_loading_requested`,
`chunk_loaded_touched`, `chunk_deprecated`). -/
inductive ChunkState where
  | notLoaded
  | loadingRequested
  | loadedTouched
  | deprecated
deriving DecidableEq, Repr

/-- Modelled from the spec: `g.chunk_loaded` (`parcels/grid.py`, not in the
snapshot) is the pair of resident states, used in
`Field.chunk_data` as `g.load_chunk[block_id] in g.chunk_loaded`. -/
def chunkLoaded (s : ChunkState) : Bool :=
  s = ChunkState.loadedTouched || s = ChunkState.deprecated

/-- A chunk of one grid: its lifecycle state (`g.load_chunk[block_id]`) and
its payload (`f.data_chunks[block_id]`, `None` when freed); the payload is
abstracted to the id of the block data it holds. -/
structure Chunk where
  state : ChunkState
  payload : Option Nat
deriving DecidableEq, Repr

/-- The elementwise begin-of-step transition of `KernelAOS.execute`
(`parcels/kernel/kernelaos.py:260-261`):
`np.where(load_chunk == chunk_loaded_touched, chunk_deprecated, load_chunk)`. -/
def beginStepChunkState (s : ChunkState) : ChunkState :=
  if s = ChunkState.loadedTouched then ChunkState.deprecated else s

/-- `beginStepChunkState` on a chunk; the payload is untouched. -/
def beginStepChunk (c : Chunk) : Chunk :=
  { c with state := beginStepChunkState c.state }

/-- The elementwise end-of-step transition of `FieldSet.computeTimeChunk`
(`parcels/fieldset.py:1139-1142`, likewise `1087-1091`): first
`np.where(load_chunk == chunk_loaded_touched, chunk_loading_requested, …)`,
then `np.where(load_chunk == chunk_deprecated, chunk_not_loaded, …)`.
Only states change here; payloads are untouched. -/
def endStepChunkState (s : ChunkState) : ChunkState :=
  let s1 := if s = ChunkState.loadedTouched then ChunkState.loadingRequested else s
  if s1 = ChunkState.deprecated then ChunkState.notLoaded else s1

/-- `endStepChunkState` on a chunk. -/
def endStepChunk (c : Chunk) : Chunk :=
  { c with state := endStepChunkState c.state }

/-- The per-block body of `Field.chunk_data` for a chunk-backed field
(`parcels/field.py:692-703`): a block whose state is `loading_requested`,
or which is in a resident state with no payload attached, gets its payload
(re)loaded (`np.array(self.data.blocks[…])`, here the oracle `load`); a
`not_loaded` block has its payload dropped (`data_chunks[block_id] = None`).
Other blocks are untouched.  The state itself is not changed here. -/
def chunkDataStep (load : Nat → Nat) (i : Nat) (c : Chunk) : Chunk :=
  if c.state = ChunkState.loadingRequested || (chunkLoaded c.state && c.payload.isNone) then
    { c with payload := some (load i) }
  else if c.state = ChunkState.notLoaded then { c with payload := none }
  else c

/-- Modelled from the spec: a sampling touch of a block during the kernel
run (`touch(grid, block_id)`, §4.1; the actual setter lives in the
generated C loop / `parcels/grid.py`, not in the snapshot): a `NotLoaded`
or `Deprecated` block gets a payload attached and becomes `LoadedTouched`;
an already-touched block is a no-op. -/
def touchChunk (load : Nat → Nat) (i : Nat) (c : Chunk) : Chunk :=
  if c.state = ChunkState.notLoaded || c.state = ChunkState.deprecated then
    { state := ChunkState.loadedTouched, payload := some (load i) }
  else c

/-- One engine step as it acts on a single chunk, in source order:
begin-of-step transition (`KernelAOS.execute`), payload maintenance
(`Field.chunk_data`, called when the kernel is launched), the kernel's
touches (`touched = false` for a block no particle samples), and the
end-of-step transition (`FieldSet.computeTimeChunk`). -/
def stepCycle (load : Nat → Nat) (i : Nat) (touched : Bool) (c : Chunk) : Chunk :=
  let c1 := beginStepChunk c
  let c2 := chunkDataStep load i c1
  let c3 := if touched then touchChunk load i c2 else c2
  endStepChunk c3

/-! ### Grids and the begin-of-step sweep over the gridset -/

/-- Grid `update_status` values (`'not_updated'`, `'first_updated'`,
`'updated'` in the source). -/
inductive UpdateStatus where
  | notUpdated
  | firstUpdated
  | updated
deriving DecidableEq, Repr

/-- A grid, reduced to what the embedded code inspects: an id, its chunk
state vector `load_chunk`, and `update_status`. -/
structure GridW where
  id : Nat
  load_chunk : List ChunkState
  update_status : UpdateStatus
deriving DecidableEq, Repr

instance : Inhabited GridW := ⟨⟨0, [], UpdateStatus.notUpdated⟩⟩

/-- `KernelAOS.execute` begin-of-step sweep over one grid
(`parcels/kernel/kernelaos.py:259-261`): when the grid has chunks
(`len(g.load_chunk) > g.chunk_not_loaded`, with `chunk_not_loaded = 0`),
every `loaded_touched` entry becomes `deprecated` and every other entry is
kept (`np.where`). -/
def beginStepGrid (g : GridW) : GridW :=
  if 0 < g.load_chunk.length then
    { g with load_chunk := g.load_chunk.map beginStepChunkState }
  else g

/-- The `for g in pset.fieldset.gridset.grids` sweep of `KernelAOS.execute`
(`parcels/kernel/kernelaos.py:257-261`). -/
def beginStepGrids (gs : List GridW) : List GridW :=
  gs.map beginStepGrid

/-! ### Field data post-processing (`Field.rescale_and_set_minmax`)

Field data values are floats; they are embedded as `FVal`: either `NaN` or
an exact number (a rational).  The embedded operations (NaN masking,
comparison against `vmin`/`vmax`, multiplication by the scaling factor)
involve no rounding, so the rational model is exact for them.  A numpy
comparison involving NaN is false, and NaN times a number is NaN. -/
inductive FVal where
  | nan
  | num (q : ℚ)
deriving DecidableEq, Repr

/-- `data * scaling_factor`, elementwise. -/
def FVal.scale (s : ℚ) : FVal → FVal
  | FVal.nan => FVal.nan
  | FVal.num q => FVal.num (q * s)

/-- `data < m`, elementwise (false on NaN, as in numpy). -/
def FVal.ltNum (v : FVal) (m : ℚ) : Bool :=
  match v with
  | FVal.nan => false
  | FVal.num q => q < m

/-- `data > m`, elementwise (false on NaN, as in numpy). -/
def FVal.gtNum (v : FVal) (m : ℚ) : Bool :=
  match v with
  | FVal.nan => false
  | FVal.num q => m < q

/-- `Field.rescale_and_set_minmax` (`parcels/field.py:816-824`), in source
order: `data[np.isnan(data)] = 0`; `if self._scaling_factor: data *=
self._scaling_factor` (a scaling factor of `0` is falsy and is skipped);
`if self.vmin is not None: data[data < self.vmin] = 0`; `if self.vmax is
not None: data[data > self.vmax] = 0`. -/
def rescale_and_set_minmax (sc : Option ℚ) (vmin vmax : Option ℚ)
    (data : List FVal) : List FVal :=
  let d1 := data.map (fun v => if v = FVal.nan then FVal.num 0 else v)
  let d2 := match sc with
    | none => d1
    | some s => if s = 0 then d1 else d1.map (FVal.scale s)
  let d3 := match vmin with
    | none => d2
    | some m => d2.map (fun v => if v.ltNum m then FVal.num 0 else v)
  match vmax with
  | none => d3
  | some m => d3.map (fun v => if v.gtNum m then FVal.num 0 else v)

/-! ### The time-window slide of `FieldSet.computeTimeChunk`

A deferred-loading field keeps a two-slot window: open readers
`f.filebuffers = [fb0, fb1]` (`parcels/field.py:217`) and the set of time
indices loaded this call, `f.loaded_time_indices`.  Readers are abstracted
to ids. -/
structure FieldW where
  filebuffers : Option Nat × Option Nat
  loaded_time_indices : List Nat
deriving DecidableEq, Repr

/-- The observable effects of one `update_status == 'updated'` branch of
`FieldSet.computeTimeChunk` on a field: the updated field, the readers
closed (`fb.close()`), the `tindex` arguments passed to
`Field.computeTimeChunk` (one per snapshot actually read from file), and
the freshly loaded, post-processed chunk data. -/
structure SlideEffects where
  field : FieldW
  closed : List Nat
  loadedTinds : List Nat
  newData : List FVal
deriving DecidableEq, Repr

/-- The reader bookkeeping of `Field.computeTimeChunk`
(`parcels/field.py:853-888`): a fresh file buffer is opened for the
snapshot entering slot `tindex` and installed there
(`self.filebuffers[tindex] = filebuffer`); `openReader tindex` is the id of
that fresh reader. -/
def fieldComputeTimeChunkBuffers (openReader : Nat → Nat) (tindex : Nat)
    (f : FieldW) : FieldW :=
  if tindex = 0 then { f with filebuffers := (some (openReader 0), f.filebuffers.2) }
  else { f with filebuffers := (f.filebuffers.1, some (openReader 1)) }

/-- The `g.update_status == 'updated'` branch of `FieldSet.computeTimeChunk`
(`parcels/fieldset.py:1093-1114`).  Forward travel (`signdt >= 0`):
`loaded_time_indices = [1]`; the reader in slot 0 (the dropped snapshot) is
closed; `filebuffers[0] = filebuffers[1]` shifts the surviving reader down;
`Field.computeTimeChunk(data, 1)` reads exactly the entering snapshot and
installs its fresh reader in slot 1; the read data goes through
`rescale_and_set_minmax`.  Backward travel is the mirror image with slot
indices swapped.  `raw t` is the data read from file for slot `t`. -/
def slideWindow (signdt : Int) (openReader : Nat → Nat) (raw : Nat → List FVal)
    (sc vmin vmax : Option ℚ) (f : FieldW) : SlideEffects :=
  if 0 ≤ signdt then
    let closed := (f.filebuffers.1).toList
    let f1 : FieldW := { filebuffers := (f.filebuffers.2, f.filebuffers.2),
                         loaded_time_indices := [1] }
    let f2 := fieldComputeTimeChunkBuffers openReader 1 f1
    { field := f2, closed := closed, loadedTinds := [1],
      newData := rescale_and_set_minmax sc vmin vmax (raw 1) }
  else
    let closed := (f.filebuffers.2).toList
    let f1 : FieldW := { filebuffers := (f.filebuffers.1, f.filebuffers.1),
                         loaded_time_indices := [0] }
    let f2 := fieldComputeTimeChunkBuffers openReader 0 f1
    { field := f2, closed := closed, loadedTinds := [0],
      newData := rescale_and_set_minmax sc vmin vmax (raw 0) }

/-- The data pipeline of the `g.update_status == 'first_updated'` branch of
`FieldSet.computeTimeChunk` (`parcels/fieldset.py:1059-1080`): both window
slots are read from file (`loaded_time_indices = range(2)`,
`data = f.computeTimeChunk(data, tind)` for `tind = 0, 1`, assembled by
`Field.data_concatenate`) and the result goes through
`rescale_and_set_minmax`. -/
def firstLoadData (raw : Nat → List FVal) (sc vmin vmax : Option ℚ) : List FVal :=
  rescale_and_set_minmax sc vmin vmax (raw 0 ++ raw 1)

/-! ### The per-grid advance loop of `FieldSet.computeTimeChunk` -/

/-- A field as seen by the first loop of `FieldSet.computeTimeChunk`: the
id of the grid it lives on, and whether it takes part in the deferred
advance (`type(f) not in [VectorField, NestedField, SummedField] and
f.grid.defer_load`). -/
structure FieldRef where
  gridId : Nat
  deferred : Bool
deriving DecidableEq, Repr

/-- Modelled from the spec: `Grid.computeTimeChunk` (`parcels/grid.py`, not
in the snapshot).  Per §4.2, `advance` checks whether the loaded window
still covers the target time: if it does, it returns the next boundary
without I/O and the status is left alone (still `NotUpdated`); if not, it
slides and sets `update_status` to `FirstUpdated` (initial fill) or
`Updated` (single-slot slide).  `needsSlide`/`isFirst` are oracles for that
decision per grid; the returned flag records whether a slide was
performed. -/
def gridAdvance (needsSlide isFirst : Nat → Bool) (g : GridW) : GridW × Bool :=
  if needsSlide g.id then
    ({ g with update_status := if isFirst g.id then UpdateStatus.firstUpdated
                               else UpdateStatus.updated }, true)
  else (g, false)

/-- `for g in self.gridset.grids: g.update_status = 'not_updated'`
(`parcels/fieldset.py:1044-1045`). -/
def resetStatuses (gs : List GridW) : List GridW :=
  gs.map (fun g => { g with update_status := UpdateStatus.notUpdated })

/-- The first `for f in self.get_fields()` loop of
`FieldSet.computeTimeChunk` (`parcels/fieldset.py:1046-1053`), restricted
to its grid-advancing effect: non-deferred fields are skipped; a deferred
field whose grid still has `update_status == 'not_updated'` invokes
`f.grid.computeTimeChunk` (`gridAdvance`).  Returns the final grid list,
the log of advance invocations and the log of performed slides (grid ids,
in field order). -/
def fieldLoop (needsSlide isFirst : Nat → Bool) :
    List GridW → List FieldRef → List GridW × List Nat × List Nat
  | gs, [] => (gs, [], [])
  | gs, f :: fs =>
    if f.deferred then
      match gs.find? (fun g => g.id = f.gridId) with
      | some g =>
        if g.update_status = UpdateStatus.notUpdated then
          let r := gridAdvance needsSlide isFirst g
          let gs' := gs.map (fun h => if h.id = f.gridId then r.1 else h)
          let rest := fieldLoop needsSlide isFirst gs' fs
          (rest.1, f.gridId :: rest.2.1,
           if r.2 then f.gridId :: rest.2.2 else rest.2.2)
        else fieldLoop needsSlide isFirst gs fs
      | none => fieldLoop needsSlide isFirst gs fs
    else fieldLoop needsSlide isFirst gs fs

/-- The status-reset phase followed by the advance loop — the opening of
`FieldSet.computeTimeChunk` (`parcels/fieldset.py:1044-1053`). -/
def computeTimeChunkPhase1 (needsSlide isFirst : Nat → Bool)
    (gs : List GridW) (fs : List FieldRef) :
    List GridW × List Nat × List Nat :=
  fieldLoop needsSlide isFirst (resetStatuses gs) fs

/-! ### `NestedField.__getitem__` -/

/-- The outcome of evaluating one child field at the sampling position:
a value, or one of the errors distinguished by the `except` clause of
`NestedField.__getitem__` — `FieldOutOfBoundError`, `FieldSamplingError`,
or any other exception (which is never caught). -/
inductive EvalErr where
  | outOfBounds
  | sampling
  | other (code : Nat)
deriving DecidableEq, Repr

/-- Whether an error is caught by the `except (FieldOutOfBoundError,
FieldSamplingError)` clause (`parcels/field.py:1082`). -/
def EvalErr.caught : EvalErr → Bool
  | EvalErr.outOfBounds => true
  | EvalErr.sampling => true
  | EvalErr.other _ => false

/-- `NestedField.__getitem__` for a non-integer key
(`parcels/field.py:1074-1087`), on the list of the children's evaluation
outcomes in list order: each child is tried in turn; a successful `eval`
breaks and its value is returned; an uncaught error propagates at once; a
caught (out-of-bounds/sampling) error moves on to the next child, except at
the last child, where it is re-raised.  On an empty list the source hits an
unbound `val` (`NameError`); that case is `none`. -/
def nestedEval : List (Except EvalErr ℚ) → Option (Except EvalErr ℚ)
  | [] => none
  | [e] =>
    match e with
    | Except.ok v => some (Except.ok v)
    | Except.error err => some (Except.error err)
  | e :: e' :: rest =>
    match e with
    | Except.ok v => some (Except.ok v)
    | Except.error err =>
      if err.caught then nestedEval (e' :: rest)
      else some (Except.error err)

instance : Inhabited Particle := ⟨⟨0, PState.Evaluate⟩⟩

/-! ### Helper lemmas -/

/-- `getD` commutes with `map` when the fallback is matched by the map. -/
theorem getD_map_eq {α β : Type} (f : α → β) (l : List α) (i : Nat) (d : α)
    (e : β) (hd : f d = e) : (l.map f).getD i e = f (l.getD i d) := by
  induction l generalizing i with
  | nil => simp [hd]
  | cons a t ih =>
    cases i with
    | zero => simp
    | succ j => simpa using ih j

/-- Whether a child outcome is skipped over by `NestedField.__getitem__`:
a caught (out-of-bounds or sampling) error. -/
def isSkippable (e : Except EvalErr ℚ) : Bool :=
  match e with
  | Except.ok _ => false
  | Except.error err => err.caught

/-! ### C4: begin-of-step marks touched chunks deprecated -/

theorem beginStepGrid_default : beginStepGrid default = default := by
  simp [beginStepGrid, default]

theorem beginStepChunkState_notLoaded :
    beginStepChunkState ChunkState.notLoaded = ChunkState.notLoaded := rfl

theorem beginStepGrid_chunk_getD (g : GridW) (j : Nat) :
    (beginStepGrid g).load_chunk.getD j ChunkState.notLoaded
      = beginStepChunkState (g.load_chunk.getD j ChunkState.notLoaded) := by
  unfold beginStepGrid
  by_cases h : 0 < g.load_chunk.length
  · simp only [h, if_pos]
    exact getD_map_eq beginStepChunkState g.load_chunk j ChunkState.notLoaded
      ChunkState.notLoaded rfl
  · simp only [h, if_neg, not_false_iff]
    have : g.load_chunk = [] := List.length_eq_zero.mp (Nat.eq_zero_of_not_pos h)
    simp [this, beginStepChunkState]

/-- C4: at the start of every `KernelAOS.execute` call, for every grid of
the fieldset and every chunk, a chunk in state `LoadedTouched` becomes
`Deprecated` and a chunk in any other state is left unchanged
(`parcels/kernel/kernelaos.py:257-261`). -/
theorem execute_begin_step_chunk_transition (gs : List GridW) (i j : Nat) :
    (((gs.getD i default).load_chunk).getD j ChunkState.notLoaded = ChunkState.loadedTouched →
      (((beginStepGrids gs).getD i default).load_chunk).getD j ChunkState.notLoaded
        = ChunkState.deprecated) ∧
    (((gs.getD i default).load_chunk).getD j ChunkState.notLoaded ≠ ChunkState.loadedTouched →
      (((beginStepGrids gs).getD i default).load_chunk).getD j ChunkState.notLoaded
        = ((gs.getD i default).load_chunk).getD j ChunkState.notLoaded) := by
  have hg : (beginStepGrids gs).getD i default = beginStepGrid (gs.getD i default) :=
    getD_map_eq beginStepGrid gs i default default beginStepGrid_default
  rw [hg, beginStepGrid_chunk_getD]
  refine ⟨fun h => ?_, fun h => ?_⟩
  · rw [h]; rfl
  · simp only [beginStepChunkState, if_neg h]

/-- Witness for C4: a gridset with one grid holding a `LoadedTouched` and a
`Deprecated` chunk; the first becomes `Deprecated`, the second is kept. -/
theorem execute_begin_step_chunk_transition_witness :
    ((([⟨0, [ChunkState.loadedTouched, ChunkState.deprecated],
          UpdateStatus.notUpdated⟩] : List GridW).getD 0 default).load_chunk).getD 0
        ChunkState.notLoaded = ChunkState.loadedTouched ∧
    (((beginStepGrids [⟨0, [ChunkState.loadedTouched, ChunkState.deprecated],
          UpdateStatus.notUpdated⟩]).getD 0 default).load_chunk).getD 0
        ChunkState.notLoaded = ChunkState.deprecated ∧
    (((beginStepGrids [⟨0, [ChunkState.loadedTouched, ChunkState.deprecated],
          UpdateStatus.notUpdated⟩]).getD 0 default).load_chunk).getD 1
        ChunkState.notLoaded = ChunkState.deprecated := by
  refine ⟨by decide, ?_, ?_⟩
  · exact (execute_begin_step_chunk_transition
      [⟨0, [ChunkState.loadedTouched, ChunkState.deprecated], UpdateStatus.notUpdated⟩]
      0 0).1 (by decide)
  · exact (execute_begin_step_chunk_transition
      [⟨0, [ChunkState.loadedTouched, ChunkState.deprecated], UpdateStatus.notUpdated⟩]
      0 1).2 (by decide)

/-! ### C9: the out-of-bounds recovery entry is copied to through-surface -/

/-- C9: in `KernelAOS.execute`, a caller recovery map with an entry for
`ErrorOutOfBounds` but none for `ErrorThroughSurface` handles
`ErrorThroughSurface` with the out-of-bounds recovery function: the entry
is copied before the merge with the default map
(`parcels/kernel/kernelaos.py:250-255`). -/
theorem through_surface_inherits_oob_recovery (base : RecoveryMap) (r : RecoveryMap)
    (h1 : (r PState.ErrorOutOfBounds).isSome = true)
    (h2 : r PState.ErrorThroughSurface = none) :
    mergeRecovery base (some r) PState.ErrorThroughSurface
      = r PState.ErrorOutOfBounds := by
  obtain ⟨k, hk⟩ := Option.isSome_iff_exists.mp h1
  unfold mergeRecovery
  simp only [hk, h2, Option.isSome_some, Option.isSome_none, Bool.not_false,
    Bool.and_self, Bool.true_and, if_true, if_pos rfl]

/-- Witness for C9: a map sending out-of-bounds to a delete-everything
kernel and nothing else; through-surface gets the same handler. -/
theorem through_surface_inherits_oob_recovery_witness :
    mergeRecovery (fun _ => none)
      (some (fun s => if s = PState.ErrorOutOfBounds
                      then some (fun _ => PState.Delete) else none))
      PState.ErrorThroughSurface
      = (fun s : PState => if s = PState.ErrorOutOfBounds
                           then some (fun _ : Particle => PState.Delete) else none)
          PState.ErrorOutOfBounds :=
  through_surface_inherits_oob_recovery (fun _ => none)
    (fun s => if s = PState.ErrorOutOfBounds
              then some (fun _ => PState.Delete) else none) rfl rfl

/-! ### C2: deprecated chunks are evicted and their payload freed -/

/-- C2: a chunk still `Deprecated` at the end-of-step boundary transitions
to `NotLoaded` (`parcels/fieldset.py:1139-1142`); a `NotLoaded` chunk has
its payload freed by the next `Field.chunk_data` call
(`parcels/field.py:698-703`); consequently a resident chunk
(`LoadedTouched` or `Deprecated`) that goes untouched for two consecutive
begin-step/end-step cycles ends the second cycle `NotLoaded` with payload
`None`. -/
theorem deprecated_chunk_evicted (load : Nat → Nat) (i : Nat) (c : Chunk) :
    (c.state = ChunkState.deprecated →
      (endStepChunk c).state = ChunkState.notLoaded) ∧
    (c.state = ChunkState.notLoaded →
      (chunkDataStep load i c).payload = none) ∧
    ((c.state = ChunkState.loadedTouched ∨ c.state = ChunkState.deprecated) →
      (stepCycle load i false (stepCycle load i false c)).payload = none ∧
      (stepCycle load i false (stepCycle load i false c)).state
        = ChunkState.notLoaded) := by
  obtain ⟨s, p⟩ := c
  cases s <;> cases p <;>
    simp [stepCycle, beginStepChunk, beginStepChunkState, chunkDataStep,
      chunkLoaded, endStepChunk, endStepChunkState]

/-- Witness for C2: a touched resident chunk with payload attached reaches
`NotLoaded`/`None` after two untouched cycles. -/
theorem deprecated_chunk_evicted_witness :
    (stepCycle (fun _ => 42) 0 false
        (stepCycle (fun _ => 42) 0 false
          ⟨ChunkState.loadedTouched, some 7⟩)).payload = none ∧
    (stepCycle (fun _ => 42) 0 false
        (stepCycle (fun _ => 42) 0 false
          ⟨ChunkState.loadedTouched, some 7⟩)).state = ChunkState.notLoaded :=
  (deprecated_chunk_evicted (fun _ => 42) 0
    ⟨ChunkState.loadedTouched, some 7⟩).2.2 (Or.inl rfl)

/-! ### C5: the window slide loads one snapshot and recycles the readers -/

/-- C5: in the `update_status == 'updated'` branch of
`FieldSet.computeTimeChunk` (`parcels/fieldset.py:1093-1113`), the slide
loads exactly one snapshot — `loaded_time_indices = [1]` and one
`Field.computeTimeChunk` call with `tindex = 1` for forward travel, slot
`0` for backward travel — closes the reader of the dropped slot, shifts the
surviving slot's reader into the freed position, and installs the fresh
reader in the reloaded slot. -/
theorem window_slide_single_snapshot (openReader : Nat → Nat) (raw : Nat → List FVal)
    (sc vmin vmax : Option ℚ) (f : FieldW) :
    ((slideWindow 1 openReader raw sc vmin vmax f).loadedTinds = [1] ∧
     (slideWindow 1 openReader raw sc vmin vmax f).field.loaded_time_indices = [1] ∧
     (slideWindow 1 openReader raw sc vmin vmax f).closed = (f.filebuffers.1).toList ∧
     (slideWindow 1 openReader raw sc vmin vmax f).field.filebuffers
       = (f.filebuffers.2, some (openReader 1))) ∧
    ((slideWindow (-1) openReader raw sc vmin vmax f).loadedTinds = [0] ∧
     (slideWindow (-1) openReader raw sc vmin vmax f).field.loaded_time_indices = [0] ∧
     (slideWindow (-1) openReader raw sc vmin vmax f).closed = (f.filebuffers.2).toList ∧
     (slideWindow (-1) openReader raw sc vmin vmax f).field.filebuffers
       = (some (openReader 0), f.filebuffers.1)) := by
  constructor <;>
    simp [slideWindow, fieldComputeTimeChunkBuffers]

/-! ### C3: `NestedField` is an ordered first-valid fallback -/

/-- C3, out-of-bounds part: the composite raises `ErrorOutOfBounds` exactly
when every child before the last raises a caught (out-of-bounds/sampling)
error and the last child raises `ErrorOutOfBounds`
(`parcels/field.py:1074-1087`). -/
theorem nested_oob_iff_last_oob (children : List (Except EvalErr ℚ)) :
    nestedEval children = some (Except.error EvalErr.outOfBounds) ↔
      children.getLast? = some (Except.error EvalErr.outOfBounds) ∧
      ∀ e ∈ children.dropLast, isSkippable e = true := by
  induction children with
  | nil => simp [nestedEval]
  | cons e t ih =>
    cases t with
    | nil =>
      simp only [nestedEval, List.getLast?_singleton, List.dropLast_single]
      cases e with
      | ok v => simp
      | error err => simp
    | cons e' t' =>
      cases e with
      | ok v =>
        have hunf : nestedEval (Except.ok v :: e' :: t') = some (Except.ok v) := rfl
        rw [hunf]
        simp only [List.getLast?_cons_cons, List.dropLast_cons₂, List.mem_cons]
        constructor
        · intro h; exact absurd h (by simp)
        · rintro ⟨-, hall⟩
          exact absurd (hall (Except.ok v) (Or.inl rfl)) (by simp [isSkippable])
      | error err =>
        have hunf : nestedEval (Except.error err :: e' :: t')
            = if err.caught then nestedEval (e' :: t')
              else some (Except.error err) := rfl
        rw [hunf]
        by_cases hc : err.caught
        · rw [if_pos hc, ih]
          simp only [List.getLast?_cons_cons, List.dropLast_cons₂, List.mem_cons]
          constructor
          · rintro ⟨hl, hall⟩
            refine ⟨hl, ?_⟩
            rintro x (rfl | hx)
            · simp [isSkippable, hc]
            · exact hall x hx
          · rintro ⟨hl, hall⟩
            exact ⟨hl, fun x hx => hall x (Or.inr hx)⟩
        · rw [if_neg hc]
          simp only [List.getLast?_cons_cons, List.dropLast_cons₂, List.mem_cons,
            Option.some_inj, Except.error.injEq]
          constructor
          · intro h
            subst h
            exact absurd rfl hc
          · rintro ⟨-, hall⟩
            have := hall (Except.error err) (Or.inl rfl)
            simp [isSkippable, hc] at this

/-- The first child outcome that is not a caught error is the composite's
outcome: all earlier children raised out-of-bounds/sampling errors and are
skipped. -/
theorem nestedEval_first_valid (e : Except EvalErr ℚ) (post : List (Except EvalErr ℚ)) :
    ∀ pre : List (Except EvalErr ℚ), (∀ x ∈ pre, isSkippable x = true) →
      isSkippable e = false → nestedEval (pre ++ e :: post) = some e := by
  intro pre
  induction pre with
  | nil =>
    intro _ hne
    cases post with
    | nil => cases e <;> rfl
    | cons y t =>
      cases e with
      | ok v => rfl
      | error err =>
        have hunf : nestedEval (Except.error err :: y :: t)
            = if err.caught then nestedEval (y :: t)
              else some (Except.error err) := rfl
        rw [List.nil_append, hunf, if_neg]
        simp only [isSkippable] at hne
        simp [hne]
  | cons x pre' ih =>
    intro hpre hne
    have hx := hpre x (List.mem_cons_self x pre')
    cases x with
    | ok v => simp [isSkippable] at hx
    | error err =>
      have hc : err.caught = true := hx
      obtain ⟨y, t, hyt⟩ : ∃ y t, pre' ++ e :: post = y :: t := by
        cases h : pre' ++ e :: post with
        | nil => simp at h
        | cons y t => exact ⟨y, t, rfl⟩
      rw [List.cons_append, hyt]
      have hunf : nestedEval (Except.error err :: y :: t)
          = if err.caught then nestedEval (y :: t)
            else some (Except.error err) := rfl
      rw [hunf, if_pos hc, ← hyt]
      exact ih (fun z hz => hpre z (List.mem_cons_of_mem _ hz)) hne

/-- C3: `NestedField.__getitem__` tries the children in list order; a child
raising out-of-bounds (or a sampling error) hands over to the next child;
the composite raises `ErrorOutOfBounds` iff the last child is reached and
raises it; the first child that evaluates without an out-of-bounds/sampling
error determines the composite's outcome (`parcels/field.py:1071-1087`). -/
theorem nested_field_first_valid (children pre post : List (Except EvalErr ℚ))
    (e : Except EvalErr ℚ) :
    (nestedEval children = some (Except.error EvalErr.outOfBounds) ↔
      children.getLast? = some (Except.error EvalErr.outOfBounds) ∧
      ∀ x ∈ children.dropLast, isSkippable x = true) ∧
    (children = pre ++ e :: post →
      (∀ x ∈ pre, isSkippable x = true) →
      isSkippable e = false →
      nestedEval children = some e) := by
  refine ⟨nested_oob_iff_last_oob children, fun hsplit hpre hne => ?_⟩
  rw [hsplit]
  exact nestedEval_first_valid e post pre hpre hne

/-- Witness for C3: three children — out-of-bounds, a value, a value — the
composite returns the second child's value; and two out-of-bounds children
make the composite raise out-of-bounds. -/
theorem nested_field_first_valid_witness :
    nestedEval [Except.error EvalErr.outOfBounds, Except.ok (5 : ℚ), Except.ok 9]
      = some (Except.ok 5) ∧
    nestedEval [Except.error EvalErr.outOfBounds, Except.error EvalErr.outOfBounds]
      = some (Except.error EvalErr.outOfBounds) :=
  ⟨(nested_field_first_valid
      [Except.error EvalErr.outOfBounds, Except.ok (5 : ℚ), Except.ok 9]
      [Except.error EvalErr.outOfBounds] [Except.ok 9] (Except.ok 5)).2
      rfl (by decide) rfl,
   (nested_field_first_valid
      [Except.error EvalErr.outOfBounds, Except.error EvalErr.outOfBounds]
      [] [] (Except.error EvalErr.outOfBounds)).1.mpr
      (by
        refine ⟨rfl, fun x hx => ?_⟩
        have hx' : x = Except.error EvalErr.outOfBounds := by simpa using hx
        rw [hx']
        rfl)⟩

/-! ### C10: post-processing of loaded chunks -/

/-- The effective scaling factor of `Field.rescale_and_set_minmax`: the
`data *= self._scaling_factor` step applies only when the factor is set and
truthy (nonzero) (`parcels/field.py:818-819`); otherwise values pass
through, i.e. are scaled by `1`. -/
def effScale (sc : Option ℚ) : ℚ :=
  match sc with
  | none => 1
  | some s => if s = 0 then 1 else s

/-- The action of `Field.rescale_and_set_minmax` on a single array element
(the source applies the same four masked-assignment steps to the whole
array at once; elementwise they compose to this). -/
def postElem (sc vmin vmax : Option ℚ) (v : FVal) : FVal :=
  let v1 := if v = FVal.nan then FVal.num 0 else v
  let v2 := match sc with
    | none => v1
    | some s => if s = 0 then v1 else v1.scale s
  let v3 := match vmin with
    | none => v2
    | some m => if v2.ltNum m then FVal.num 0 else v2
  match vmax with
  | none => v3
  | some m => if v3.gtNum m then FVal.num 0 else v3

theorem rescale_eq_map (sc vmin vmax : Option ℚ) (data : List FVal) :
    rescale_and_set_minmax sc vmin vmax data = data.map (postElem sc vmin vmax) := by
  unfold rescale_and_set_minmax postElem
  cases sc with
  | none =>
    cases vmin <;> cases vmax <;> simp [List.map_map]
  | some s =>
    by_cases hs : s = 0 <;>
      cases vmin <;> cases vmax <;> simp [List.map_map, hs]

/-- `getD` through `map` at an in-range index. -/
theorem getD_map_lt {α β : Type} (f : α → β) (l : List α) (i : Nat) (d : α)
    (e : β) (h : i < l.length) : (l.map f).getD i e = f (l.getD i d) := by
  rw [List.getD_eq_getElem _ _ (by simpa using h), List.getD_eq_getElem _ _ h,
    List.getElem_map]

theorem postElem_nan (sc vmin vmax : Option ℚ) :
    postElem sc vmin vmax FVal.nan = FVal.num 0 := by
  unfold postElem
  cases sc with
  | none =>
    cases vmin <;> cases vmax <;> simp [FVal.ltNum, FVal.gtNum]
  | some s =>
    by_cases hs : s = 0 <;>
      cases vmin <;> cases vmax <;>
        simp [hs, FVal.scale, FVal.ltNum, FVal.gtNum]

/-- After the NaN mask and the scaling step, a numeric input `q` stands at
`q * effScale sc`. -/
theorem postElem_num (sc vmin vmax : Option ℚ) (q : ℚ) :
    postElem sc vmin vmax (FVal.num q)
      = (let x := q * effScale sc
         let v3 := match vmin with
           | none => FVal.num x
           | some m => if x < m then FVal.num 0 else FVal.num x
         match vmax with
         | none => v3
         | some m => if v3.gtNum m then FVal.num 0 else v3) := by
  unfold postElem effScale
  cases sc with
  | none =>
    cases vmin <;> cases vmax <;> simp [FVal.ltNum, FVal.gtNum, mul_one]
  | some s =>
    by_cases hs : s = 0 <;>
      cases vmin <;> cases vmax <;>
        simp [hs, FVal.scale, FVal.ltNum, FVal.gtNum, mul_one]

theorem postElem_ne_nan (sc vmin vmax : Option ℚ) (v : FVal) :
    postElem sc vmin vmax v ≠ FVal.nan := by
  cases v with
  | nan => rw [postElem_nan]; simp
  | num q =>
    rw [postElem_num]
    cases vmin <;> cases vmax <;> dsimp only [] <;>
      (repeat' split) <;> simp

/-- Counterexample for C10 as stated: with a scaling factor of `3` and
`vmin = 2`, the loaded value `1` lies below `vmin` yet the slide stores
`3`, not `0` — the `vmin`/`vmax` masks of `Field.rescale_and_set_minmax`
compare the values after the scaling step (`parcels/field.py:818-821`). -/
theorem chunk_postprocess_counterexample :
    (1 : ℚ) < 2 ∧
    (slideWindow 1 (fun _ => 0) (fun _ => [FVal.num 1]) (some 3) (some 2) none
        ⟨(none, none), []⟩).newData = [FVal.num 3] ∧
    FVal.num (3 : ℚ) ≠ FVal.num 0 := by
  refine ⟨by norm_num, ?_, by norm_num⟩
  show rescale_and_set_minmax (some 3) (some 2) none [FVal.num 1] = [FVal.num 3]
  rw [rescale_eq_map]
  simp only [List.map_cons, List.map_nil, postElem_num]
  norm_num [effScale, FVal.gtNum]

/-- C10 amended: every chunk loaded by `FieldSet.computeTimeChunk` — the
initial full-window load and either slide direction — is post-processed by
`Field.rescale_and_set_minmax`, which turns every NaN into `0` and, when
`vmin`/`vmax` is set, turns every post-scaling value below `vmin` or above
`vmax` into `0` (so no NaN survives, and every stored value is `0` or
within the bounds). -/
theorem chunk_postprocess_bounds (openReader : Nat → Nat) (raw : Nat → List FVal)
    (sc vmin vmax : Option ℚ) (f : FieldW) (data : List FVal) (i : Nat) :
    ((slideWindow 1 openReader raw sc vmin vmax f).newData
        = rescale_and_set_minmax sc vmin vmax (raw 1)) ∧
    ((slideWindow (-1) openReader raw sc vmin vmax f).newData
        = rescale_and_set_minmax sc vmin vmax (raw 0)) ∧
    (firstLoadData raw sc vmin vmax
        = rescale_and_set_minmax sc vmin vmax (raw 0 ++ raw 1)) ∧
    (i < data.length →
      (data.getD i FVal.nan = FVal.nan →
        (rescale_and_set_minmax sc vmin vmax data).getD i FVal.nan = FVal.num 0) ∧
      (rescale_and_set_minmax sc vmin vmax data).getD i FVal.nan ≠ FVal.nan ∧
      (∀ q m, data.getD i FVal.nan = FVal.num q → vmin = some m →
        q * effScale sc < m →
        (rescale_and_set_minmax sc vmin vmax data).getD i FVal.nan = FVal.num 0) ∧
      (∀ q m, data.getD i FVal.nan = FVal.num q → vmax = some m →
        m < q * effScale sc →
        (rescale_and_set_minmax sc vmin vmax data).getD i FVal.nan = FVal.num 0)) := by
  refine ⟨rfl, rfl, rfl, fun hi => ?_⟩
  have hout : (rescale_and_set_minmax sc vmin vmax data).getD i FVal.nan
      = postElem sc vmin vmax (data.getD i FVal.nan) := by
    rw [rescale_eq_map]
    exact getD_map_lt (postElem sc vmin vmax) data i FVal.nan FVal.nan hi
  refine ⟨fun hnan => ?_, ?_, fun q m hq hvmin hlt => ?_, fun q m hq hvmax hgt => ?_⟩
  · rw [hout, hnan, postElem_nan]
  · rw [hout]; exact postElem_ne_nan sc vmin vmax _
  · rw [hout, hq, postElem_num]
    subst hvmin
    simp only [if_pos hlt]
    cases vmax with
    | none => rfl
    | some M =>
      dsimp only []
      split <;> rfl
  · rw [hout, hq, postElem_num]
    subst hvmax
    cases vmin with
    | none => simp [FVal.gtNum, hgt]
    | some m' =>
      dsimp only []
      by_cases hm : q * effScale sc < m'
      · simp only [if_pos hm]
        split <;> rfl
      · simp only [if_neg hm, FVal.gtNum]
        simp [hgt]

/-- Witness for C10 amended: a chunk `[NaN, 5, -1, 9]` with scaling `2`,
`vmin = 1`, `vmax = 12`: the NaN becomes `0`, `-1` scales to `-2 < vmin`
and becomes `0`, `9` scales to `18 > vmax` and becomes `0`. -/
theorem chunk_postprocess_bounds_witness :
    ((0 : Nat) < ([FVal.nan, FVal.num 5, FVal.num (-1), FVal.num 9] : List FVal).length ∧
      (rescale_and_set_minmax (some 2) (some 1) (some 12)
        [FVal.nan, FVal.num 5, FVal.num (-1), FVal.num 9]).getD 0 FVal.nan = FVal.num 0) ∧
    (rescale_and_set_minmax (some 2) (some 1) (some 12)
        [FVal.nan, FVal.num 5, FVal.num (-1), FVal.num 9]).getD 2 FVal.nan = FVal.num 0 ∧
    (rescale_and_set_minmax (some 2) (some 1) (some 12)
        [FVal.nan, FVal.num 5, FVal.num (-1), FVal.num 9]).getD 3 FVal.nan = FVal.num 0 :=
  ⟨⟨by norm_num,
    ((chunk_postprocess_bounds (fun _ => 0) (fun _ => []) (some 2) (some 1) (some 12)
        ⟨(none, none), []⟩ [FVal.nan, FVal.num 5, FVal.num (-1), FVal.num 9] 0).2.2.2
      (by norm_num)).1 rfl⟩,
   ((chunk_postprocess_bounds (fun _ => 0) (fun _ => []) (some 2) (some 1) (some 12)
        ⟨(none, none), []⟩ [FVal.nan, FVal.num 5, FVal.num (-1), FVal.num 9] 2).2.2.2
      (by norm_num)).2.2.1 (-1) 1 rfl rfl (by norm_num [effScale]),
   ((chunk_postprocess_bounds (fun _ => 0) (fun _ => []) (some 2) (some 1) (some 12)
        ⟨(none, none), []⟩ [FVal.nan, FVal.num 5, FVal.num (-1), FVal.num 9] 3).2.2.2
      (by norm_num)).2.2.2 9 12 rfl rfl (by norm_num [effScale])⟩

/-! ### C8: per-grid advance in `FieldSet.computeTimeChunk` -/

theorem gridAdvance_id (needsSlide isFirst : Nat → Bool) (g : GridW) :
    (gridAdvance needsSlide isFirst g).1.id = g.id := by
  unfold gridAdvance
  by_cases hn : needsSlide g.id = true <;> simp [hn]

theorem gridAdvance_slid (needsSlide isFirst : Nat → Bool) (g : GridW)
    (h : (gridAdvance needsSlide isFirst g).2 = true) :
    (gridAdvance needsSlide isFirst g).1.update_status ≠ UpdateStatus.notUpdated := by
  unfold gridAdvance at h ⊢
  by_cases hn : needsSlide g.id = true
  · simp only [hn, if_true]
    by_cases hf : isFirst g.id = true <;> simp [hf]
  · simp [hn] at h

/-- Once every grid carrying a given id has left `NotUpdated`, no later
field performs a slide for that id: the `update_status == 'not_updated'`
guard skips the advance. -/
theorem fieldLoop_no_slide (needsSlide isFirst : Nat → Bool) (gid : Nat) :
    ∀ (fs : List FieldRef) (gs : List GridW),
      (∀ g ∈ gs, g.id = gid → g.update_status ≠ UpdateStatus.notUpdated) →
      gid ∉ (fieldLoop needsSlide isFirst gs fs).2.2 := by
  intro fs
  induction fs with
  | nil => intro gs _; simp [fieldLoop]
  | cons f fs ih =>
    intro gs h
    rw [fieldLoop]
    by_cases hdef : f.deferred = true
    · rw [if_pos hdef]
      cases hfind : gs.find? (fun g => g.id = f.gridId) with
      | none => exact ih gs h
      | some g0 =>
        have hg0mem : g0 ∈ gs := List.mem_of_find?_eq_some hfind
        have hg0id : g0.id = f.gridId := by
          have := List.find?_some hfind
          simpa using this
        dsimp only []
        by_cases hst : g0.update_status = UpdateStatus.notUpdated
        · rw [if_pos hst]
          have hne : f.gridId ≠ gid := by
            intro hEq
            exact (h g0 hg0mem (hg0id.trans hEq)) hst
          have hrec : gid ∉ (fieldLoop needsSlide isFirst
              (gs.map (fun h0 => if h0.id = f.gridId
                then (gridAdvance needsSlide isFirst g0).1 else h0)) fs).2.2 := by
            refine ih _ fun g' hg' hid => ?_
            obtain ⟨h0, hh0, rfl⟩ := List.mem_map.mp hg'
            by_cases hcase : h0.id = f.gridId
            · exfalso
              rw [if_pos hcase] at hid
              rw [gridAdvance_id needsSlide isFirst g0, hg0id] at hid
              exact hne hid
            · rw [if_neg hcase] at hid ⊢
              exact h h0 hh0 hid
          dsimp only []
          by_cases hsl : (gridAdvance needsSlide isFirst g0).2 = true
          · rw [if_pos hsl]
            simp only [List.mem_cons]
            rintro (hEq | hmem)
            · exact hne hEq.symm
            · exact hrec hmem
          · rw [if_neg hsl]
            exact hrec
        · rw [if_neg hst]
          exact ih gs h
    · rw [if_neg hdef]
      exact ih gs h

/-- The slide log of the advance loop mentions each grid id at most once. -/
theorem fieldLoop_slide_count (needsSlide isFirst : Nat → Bool) (gid : Nat) :
    ∀ (fs : List FieldRef) (gs : List GridW),
      ((fieldLoop needsSlide isFirst gs fs).2.2).count gid ≤ 1 := by
  intro fs
  induction fs with
  | nil => intro gs; simp [fieldLoop]
  | cons f fs ih =>
    intro gs
    rw [fieldLoop]
    by_cases hdef : f.deferred = true
    · rw [if_pos hdef]
      cases hfind : gs.find? (fun g => g.id = f.gridId) with
      | none => exact ih gs
      | some g0 =>
        have hg0id : g0.id = f.gridId := by
          have := List.find?_some hfind
          simpa using this
        dsimp only []
        by_cases hst : g0.update_status = UpdateStatus.notUpdated
        · rw [if_pos hst]
          dsimp only []
          by_cases hsl : (gridAdvance needsSlide isFirst g0).2 = true
          · rw [if_pos hsl]
            by_cases hEq : gid = f.gridId
            · have hzero : gid ∉ (fieldLoop needsSlide isFirst
                  (gs.map (fun h0 => if h0.id = f.gridId
                    then (gridAdvance needsSlide isFirst g0).1 else h0)) fs).2.2 := by
                refine fieldLoop_no_slide needsSlide isFirst gid fs _
                  fun g' hg' hid => ?_
                obtain ⟨h0, hh0, rfl⟩ := List.mem_map.mp hg'
                by_cases hcase : h0.id = f.gridId
                · rw [if_pos hcase]
                  exact gridAdvance_slid needsSlide isFirst g0 hsl
                · exfalso
                  rw [if_neg hcase] at hid
                  exact hcase (hid.trans hEq)
              have hcz : List.count gid (fieldLoop needsSlide isFirst
                  (gs.map (fun h0 => if h0.id = f.gridId
                    then (gridAdvance needsSlide isFirst g0).1 else h0)) fs).2.2 = 0 :=
                List.count_eq_zero.mpr hzero
              rw [hEq] at hcz ⊢
              rw [List.count_cons, hcz]
              simp
            · rw [List.count_cons]
              simp only [beq_iff_eq]
              rw [if_neg fun hh => hEq hh.symm]
              simpa using ih _
          · rw [if_neg hsl]
            exact ih _
        · rw [if_neg hst]
          exact ih gs
    · rw [if_neg hdef]
      exact ih gs

/-- Counterexample for C8 as stated: two deferred fields sharing one grid
whose window does not need to advance — the per-grid window-slide
computation (`f.grid.computeTimeChunk`) is invoked by both fields, since a
no-slide advance leaves `update_status` at `'not_updated'`
(`parcels/fieldset.py:1049-1050`). -/
theorem advance_invoked_twice_counterexample :
    (computeTimeChunkPhase1 (fun _ => false) (fun _ => false)
        [⟨0, [], UpdateStatus.updated⟩] [⟨0, true⟩, ⟨0, true⟩]).2.1 = [0, 0] ∧
    ((computeTimeChunkPhase1 (fun _ => false) (fun _ => false)
        [⟨0, [], UpdateStatus.updated⟩] [⟨0, true⟩, ⟨0, true⟩]).2.1).count 0 = 2 := by
  constructor <;> rfl

/-- C8 amended: within one `FieldSet.computeTimeChunk` call every grid's
`update_status` is first reset to `'not_updated'`
(`parcels/fieldset.py:1044-1045`), and the window slide itself is performed
at most once per grid — the first deferred field that slides sets
`update_status`, and later fields sharing the grid are stopped by the
`update_status == 'not_updated'` guard; only the I/O-free advance check may
be re-invoked by later fields when no slide occurred. -/
theorem grid_reset_and_slide_once (needsSlide isFirst : Nat → Bool)
    (gs : List GridW) (fs : List FieldRef) (gid : Nat) :
    (∀ g ∈ resetStatuses gs, g.update_status = UpdateStatus.notUpdated) ∧
    ((computeTimeChunkPhase1 needsSlide isFirst gs fs).2.2).count gid ≤ 1 := by
  constructor
  · intro g hg
    obtain ⟨g0, _, rfl⟩ := List.mem_map.mp hg
    rfl
  · exact fieldLoop_slide_count needsSlide isFirst gid fs (resetStatuses gs)

/-- Witness for C8 amended: two deferred fields on one grid that does need
a slide — the reset holds and the slide happens exactly once. -/
theorem grid_reset_and_slide_once_witness :
    (∀ g ∈ resetStatuses [(⟨0, [], UpdateStatus.updated⟩ : GridW)],
        g.update_status = UpdateStatus.notUpdated) ∧
    ((computeTimeChunkPhase1 (fun _ => true) (fun _ => false)
        [⟨0, [], UpdateStatus.updated⟩] [⟨0, true⟩, ⟨0, true⟩]).2.2).count 0 ≤ 1 :=
  grid_reset_and_slide_once (fun _ => true) (fun _ => false)
    [⟨0, [], UpdateStatus.updated⟩] [⟨0, true⟩, ⟨0, true⟩] 0

/-! ### Recovery-pass lemmas -/

/-- If some particle in the set has state `StopExecution`, the recovery
sweep reports the stop. -/
theorem recoveryPass_stops (rm : RecoveryMap) (ps : List Particle)
    (h : ∃ p ∈ ps, p.state = PState.StopExecution) :
    (recoveryPass rm ps).2 = true := by
  induction ps with
  | nil => simp at h
  | cons p ps ih =>
    obtain ⟨q, hq, hqs⟩ := h
    rw [recoveryPass]
    by_cases h1 : p.state = PState.Success ∨ p.state = PState.Evaluate
    · rw [if_pos h1]
      have hq' : q ∈ ps := by
        rcases List.mem_cons.mp hq with rfl | hq'
        · rcases h1 with h1 | h1 <;> rw [h1] at hqs <;> exact absurd hqs (by simp)
        · exact hq'
      exact ih ⟨q, hq', hqs⟩
    · rw [if_neg h1]
      by_cases h2 : p.state = PState.StopExecution
      · rw [if_pos h2]
      · rw [if_neg h2]
        have hq' : q ∈ ps := by
          rcases List.mem_cons.mp hq with rfl | hq'
          · exact absurd hqs h2
          · exact hq'
        exact ih ⟨q, hq', hqs⟩

/-- The recovery sweep preserves the length of the set (particles are only
mutated in place; removal happens afterwards in `remove_deleted`). -/
theorem recoveryPass_length (rm : RecoveryMap) (ps : List Particle) :
    (recoveryPass rm ps).1.length = ps.length := by
  induction ps with
  | nil => rfl
  | cons p ps ih =>
    rw [recoveryPass]
    by_cases h1 : p.state = PState.Success ∨ p.state = PState.Evaluate
    · rw [if_pos h1]; simpa using ih
    · rw [if_neg h1]
      by_cases h2 : p.state = PState.StopExecution
      · rw [if_pos h2]
      · rw [if_neg h2]; simpa using ih

/-- The recovery sweep never touches a particle whose status is `Success`
or `Evaluate` (they are not in `error_particles`). -/
theorem recoveryPass_preserves_done (rm : RecoveryMap) (ps : List Particle) :
    ∀ i : Nat,
      ((ps.getD i default).state = PState.Success ∨
       (ps.getD i default).state = PState.Evaluate) →
      (recoveryPass rm ps).1.getD i default = ps.getD i default := by
  induction ps with
  | nil => intro i _; rfl
  | cons p ps ih =>
    intro i hi
    rw [recoveryPass]
    by_cases h1 : p.state = PState.Success ∨ p.state = PState.Evaluate
    · rw [if_pos h1]
      cases i with
      | zero => rfl
      | succ j => simpa using ih j (by simpa using hi)
    · rw [if_neg h1]
      by_cases h2 : p.state = PState.StopExecution
      · rw [if_pos h2]
      · rw [if_neg h2]
        cases i with
        | zero => exact absurd (by simpa using hi) h1
        | succ j => simpa using ih j (by simpa using hi)

/-- From the position of the first `StopExecution` particle onwards, the
recovery sweep leaves the set exactly as it was: the `return` fires before
those particles are visited. -/
theorem recoveryPass_preserves_suffix (rm : RecoveryMap) (ps : List Particle) :
    ∀ j : Nat,
      ps.findIdx (fun p => p.state = PState.StopExecution) ≤ j →
      (recoveryPass rm ps).1.getD j default = ps.getD j default := by
  induction ps with
  | nil => intro j _; rfl
  | cons p ps ih =>
    intro j hj
    rw [recoveryPass]
    by_cases h2 : p.state = PState.StopExecution
    · have h1 : ¬(p.state = PState.Success ∨ p.state = PState.Evaluate) := by
        rw [h2]; simp
      rw [if_neg h1, if_pos h2]
    · have hidx : (p :: ps).findIdx (fun p => p.state = PState.StopExecution)
          = ps.findIdx (fun p => p.state = PState.StopExecution) + 1 := by
        rw [List.findIdx_cons]
        simp [h2]
      rw [hidx] at hj
      obtain ⟨j', rfl⟩ : ∃ j', j = j' + 1 :=
        ⟨j - 1, by omega⟩
      have hj' : ps.findIdx (fun p => p.state = PState.StopExecution) ≤ j' := by omega
      by_cases h1 : p.state = PState.Success ∨ p.state = PState.Evaluate
      · rw [if_pos h1]
        simpa using ih j' hj'
      · rw [if_neg h1, if_neg h2]
        simpa using ih j' hj'

/-- The action of one sweep on one particle of the set, when no
`StopExecution` interrupts it. -/
def stepParticle (rm : RecoveryMap) (p : Particle) : Particle :=
  if p.state = PState.Success ∨ p.state = PState.Evaluate then p
  else applyRecovery rm p

/-- Without a `StopExecution` particle, the sweep completes and acts on
each particle independently. -/
theorem recoveryPass_no_stop (rm : RecoveryMap) (ps : List Particle)
    (h : ∀ p ∈ ps, ¬p.state = PState.StopExecution) :
    recoveryPass rm ps = (ps.map (stepParticle rm), false) := by
  induction ps with
  | nil => rfl
  | cons p ps ih =>
    rw [recoveryPass]
    have hp := h p (List.mem_cons_self p ps)
    have hrest := ih fun q hq => h q (List.mem_cons_of_mem _ hq)
    by_cases h1 : p.state = PState.Success ∨ p.state = PState.Evaluate
    · rw [if_pos h1, hrest]
      simp [stepParticle, h1]
    · rw [if_neg h1, if_neg hp, hrest]
      simp [stepParticle, h1]

/-! ### C1: `StopExecution` aborts the whole `execute` call -/

/-- C1: if during the recovery loop some particle has state
`StopExecution`, `execute` returns at once (`return`,
`parcels/kernel/kernelaos.py:278-279`): the result is the abort with no
flush, no kernel re-run and no further recovery pass, the set keeps its
length, every particle still `Evaluate` or `Success` is untouched, and
every particle from the first `StopExecution` onwards is untouched. -/
theorem stop_execution_aborts_execute (rm : RecoveryMap)
    (ker : Nat → Particle → Particle) (writeOut : Bool) (n fuel : Nat)
    (ps written : List Particle)
    (h : ∃ p ∈ ps, p.state = PState.StopExecution) :
    execLoopAux rm ker writeOut n (fuel + 1) ps written
      = ExecResult.stopped (recoveryPass rm ps).1 written ∧
    (recoveryPass rm ps).1.length = ps.length ∧
    (∀ i : Nat, ((ps.getD i default).state = PState.Evaluate ∨
        (ps.getD i default).state = PState.Success) →
      (recoveryPass rm ps).1.getD i default = ps.getD i default) ∧
    (∀ j : Nat, ps.findIdx (fun p => p.state = PState.StopExecution) ≤ j →
      (recoveryPass rm ps).1.getD j default = ps.getD j default) := by
  refine ⟨?_, recoveryPass_length rm ps,
    fun i hi => recoveryPass_preserves_done rm ps i (Or.symm hi),
    recoveryPass_preserves_suffix rm ps⟩
  have hne : (errorParticles ps).isEmpty = false := by
    obtain ⟨q, hq, hqs⟩ := h
    have hmem : q ∈ errorParticles ps :=
      List.mem_filter.mpr ⟨hq, by simp [isErrorState, hqs]⟩
    cases herr : errorParticles ps with
    | nil => rw [herr] at hmem; simp at hmem
    | cons a l => rfl
  have hstop : (recoveryPass rm ps).2 = true := recoveryPass_stops rm ps h
  rw [execLoopAux]
  simp only [hne, Bool.false_eq_true, if_false, hstop, if_true]

/-- Witness for C1: a three-particle set whose middle particle called
`stop()`; the loop aborts with the set exactly as it was, the two
`Evaluate` particles untouched. -/
theorem stop_execution_aborts_execute_witness :
    execLoopAux (fun _ => none) (fun _ p => p) true 1 1
        [⟨1, PState.Evaluate⟩, ⟨2, PState.StopExecution⟩, ⟨3, PState.Evaluate⟩] []
      = ExecResult.stopped
          [⟨1, PState.Evaluate⟩, ⟨2, PState.StopExecution⟩, ⟨3, PState.Evaluate⟩] [] :=
  (stop_execution_aborts_execute (fun _ => none) (fun _ p => p) true 1 0
    [⟨1, PState.Evaluate⟩, ⟨2, PState.StopExecution⟩, ⟨3, PState.Evaluate⟩] []
    ⟨⟨2, PState.StopExecution⟩, by decide, rfl⟩).1

/-! ### C6: unmapped error kinds are force-deleted, never silent successes -/

/-- C6: in the recovery loop, a particle whose error state has no entry in
the recovery map is force-deleted (`logger.warning_once(…); p.delete()`,
`parcels/kernel/kernelaos.py:290-292`): after the sweep its state is
`Delete` (never `Success`), it is in the batch `remove_deleted` flushes to
the output file, and it is not in the surviving set. -/
theorem unmapped_error_forced_delete (rm : RecoveryMap) (ps : List Particle)
    (i : Nat)
    (hstop : ∀ p ∈ ps, ¬p.state = PState.StopExecution)
    (hi : i < ps.length)
    (herr : isErrorState (ps.getD i default).state = true)
    (hrep : ¬(ps.getD i default).state = PState.Repeat)
    (hdel : ¬(ps.getD i default).state = PState.Delete)
    (hmap : rm (ps.getD i default).state = none) :
    (recoveryPass rm ps).2 = false ∧
    (recoveryPass rm ps).1.getD i default = (ps.getD i default).deleteP ∧
    ((recoveryPass rm ps).1.getD i default).state = PState.Delete ∧
    ¬((recoveryPass rm ps).1.getD i default).state = PState.Success ∧
    (ps.getD i default).deleteP ∈ deletedParticles (recoveryPass rm ps).1 ∧
    (ps.getD i default).deleteP ∉ removeDeleted (recoveryPass rm ps).1 := by
  have hns := recoveryPass_no_stop rm ps hstop
  have hget : (recoveryPass rm ps).1.getD i default
      = stepParticle rm (ps.getD i default) := by
    rw [hns]
    exact getD_map_lt (stepParticle rm) ps i default default hi
  have hstep : stepParticle rm (ps.getD i default) = (ps.getD i default).deleteP := by
    unfold stepParticle
    rw [if_neg]
    · unfold applyRecovery
      rw [if_neg hrep, if_neg hdel, hmap]
    · intro hcon
      rw [isErrorState] at herr
      rcases hcon with hc | hc <;> rw [hc] at herr <;> simp at herr
  have hgd : (recoveryPass rm ps).1.getD i default = (ps.getD i default).deleteP :=
    hget.trans hstep
  have hlen : i < (recoveryPass rm ps).1.length := by
    rw [recoveryPass_length]; exact hi
  have hmem : (ps.getD i default).deleteP ∈ (recoveryPass rm ps).1 := by
    rw [← hgd, List.getD_eq_getElem _ _ hlen]
    exact List.getElem_mem hlen
  refine ⟨by rw [hns], hgd, by rw [hgd]; rfl, by rw [hgd]; simp [Particle.deleteP], ?_, ?_⟩
  · exact List.mem_filter.mpr ⟨hmem, by simp [Particle.deleteP]⟩
  · intro hin
    have := (List.mem_filter.mp hin).2
    simp [Particle.deleteP] at this

/-- Witness for C6: one particle with an unmapped
`ErrorTimeExtrapolation`; the sweep deletes it, and the flush/remove split
sends it to the output batch only. -/
theorem unmapped_error_forced_delete_witness :
    (recoveryPass (fun _ => none) [⟨0, PState.ErrorTimeExtrapolation⟩]).2 = false ∧
    (recoveryPass (fun _ => none) [⟨0, PState.ErrorTimeExtrapolation⟩]).1.getD 0 default
      = (⟨0, PState.ErrorTimeExtrapolation⟩ : Particle).deleteP ∧
    ((recoveryPass (fun _ => none) [⟨0, PState.ErrorTimeExtrapolation⟩]).1.getD 0
        default).state = PState.Delete ∧
    ¬((recoveryPass (fun _ => none) [⟨0, PState.ErrorTimeExtrapolation⟩]).1.getD 0
        default).state = PState.Success ∧
    (⟨0, PState.ErrorTimeExtrapolation⟩ : Particle).deleteP
      ∈ deletedParticles (recoveryPass (fun _ => none)
          [⟨0, PState.ErrorTimeExtrapolation⟩]).1 ∧
    (⟨0, PState.ErrorTimeExtrapolation⟩ : Particle).deleteP
      ∉ removeDeleted (recoveryPass (fun _ => none)
          [⟨0, PState.ErrorTimeExtrapolation⟩]).1 := by
  have h0 : ([⟨0, PState.ErrorTimeExtrapolation⟩] : List Particle).getD 0 default
      = ⟨0, PState.ErrorTimeExtrapolation⟩ := rfl
  have := unmapped_error_forced_delete (fun _ => none)
    [⟨0, PState.ErrorTimeExtrapolation⟩] 0 (by decide) (by decide)
    (by decide) (by decide) (by decide) rfl
  rwa [h0] at this

/-! ### C7: the recovery loop terminates when errors stop being emitted -/

/-- If no particle is in an error state, the loop exits at once, for any
remaining fuel. -/
theorem execLoopAux_done_of_clean (rm : RecoveryMap)
    (ker : Nat → Particle → Particle) (writeOut : Bool) (n fuel : Nat)
    (ps written : List Particle)
    (h : (errorParticles ps).isEmpty = true) :
    execLoopAux rm ker writeOut n fuel ps written
      = ExecResult.done ps written := by
  rw [execLoopAux.eq_def]
  dsimp only []
  rw [if_pos h]

/-- After any kernel pass whose results are all `Success`/`Evaluate`, the
error list is empty. -/
theorem errorParticles_map_clean (ker1 : Particle → Particle)
    (ps : List Particle)
    (h : ∀ p, (ker1 p).state = PState.Success ∨ (ker1 p).state = PState.Evaluate) :
    (errorParticles (ps.map ker1)).isEmpty = true := by
  have : errorParticles (ps.map ker1) = [] := by
    apply List.filter_eq_nil_iff.mpr
    intro q hq
    obtain ⟨p, _, rfl⟩ := List.mem_map.mp hq
    rcases h p with hc | hc <;> simp [isErrorState, hc]
  rw [this]; rfl

/-- From a pass index at which the kernel has stopped emitting errors, one
unit of fuel suffices. -/
theorem execLoopAux_settles_late (rm : RecoveryMap)
    (ker : Nat → Particle → Particle) (writeOut : Bool) (N : Nat)
    (hker : ∀ m, N ≤ m → ∀ p,
      (ker m p).state = PState.Success ∨ (ker m p).state = PState.Evaluate) :
    ∀ (fuel n : Nat) (ps written : List Particle), N ≤ n →
      execLoopAux rm ker writeOut n (fuel + 1) ps written ≠ ExecResult.fuelOut := by
  intro fuel n ps written hn
  rw [execLoopAux]
  by_cases hempty : (errorParticles ps).isEmpty = true
  · rw [if_pos hempty]; simp
  · rw [if_neg hempty]
    dsimp only []
    by_cases hstop2 : (recoveryPass rm ps).2 = true
    · rw [if_pos hstop2]; simp
    · rw [if_neg hstop2]
      have hclean := errorParticles_map_clean (ker n)
        (removeDeleted (recoveryPass rm ps).1) (hker n hn)
      rw [execLoopAux_done_of_clean _ _ _ _ _ _ _ hclean]
      simp

/-- C7: if the combined kernel/recovery behaviour stops emitting error
states from some pass `N` on — every particle's kernel result is `Success`
or `Evaluate` for all passes `≥ N` — then the
`while error_particles` loop of `KernelAOS.execute` performs at most `N`
further passes: `N + 1` units of fuel are never exhausted, i.e. `execute`
terminates (by exiting the loop or by a `StopExecution` abort). -/
theorem recovery_loop_terminates (base : RecoveryMap)
    (recovery : Option RecoveryMap) (ker : Nat → Particle → Particle)
    (writeOut : Bool) (ps : List Particle) (N : Nat)
    (hker : ∀ m, N ≤ m → ∀ p,
      (ker m p).state = PState.Success ∨ (ker m p).state = PState.Evaluate) :
    executeModel base recovery ker writeOut (N + 1) ps ≠ ExecResult.fuelOut := by
  suffices hgen : ∀ (fuel n : Nat) (qs written : List Particle), N ≤ n + fuel →
      execLoopAux (mergeRecovery base recovery) ker writeOut n (fuel + 1) qs written
        ≠ ExecResult.fuelOut by
    unfold executeModel
    exact hgen N 1 _ _ (by omega)
  intro fuel
  induction fuel with
  | zero =>
    intro n qs written h
    exact execLoopAux_settles_late (mergeRecovery base recovery) ker writeOut N hker
      0 n qs written (by omega)
  | succ fuel ih =>
    intro n qs written h
    by_cases hn : N ≤ n
    · exact execLoopAux_settles_late (mergeRecovery base recovery) ker writeOut N hker
        (fuel + 1) n qs written hn
    · rw [execLoopAux]
      by_cases hempty : (errorParticles qs).isEmpty = true
      · rw [if_pos hempty]; simp
      · rw [if_neg hempty]
        dsimp only []
        by_cases hstop2 : (recoveryPass (mergeRecovery base recovery) qs).2 = true
        · rw [if_pos hstop2]; simp
        · rw [if_neg hstop2]
          exact ih (n + 1) _ _ (by omega)

/-- Witness for C7: a kernel that resolves every particle to `Success`
immediately (`N = 0`); `execute` with fuel `1` does not run out. -/
theorem recovery_loop_terminates_witness :
    executeModel (fun _ => none) none
        (fun _ p => { p with state := PState.Success }) true 1
        [⟨0, PState.Evaluate⟩] ≠ ExecResult.fuelOut :=
  recovery_loop_terminates (fun _ => none) none
    (fun _ p => { p with state := PState.Success }) true
    [⟨0, PState.Evaluate⟩] 0 (fun _ _ _ => Or.inl rfl)

end Parcels
